import Mathlib

/-!
Verification of the Web-Browser-Query-Agent pipeline against its
natural-language specification.

The Python sources (cache.py, cache_chromadb.py, web_search.py,
summarizer.py, agent.py, main.py, app.py) are shallowly embedded below.
Pure text processing is translated function-by-function onto `List Char` /
`String`; machine floats for similarity scores are modelled as exact
rationals; external collaborators (the sentence-embedding model, the HTTP
fetches of the search providers, the hosted summarization model, the
pickled classifier) are passed in as explicit oracle functions, so that
every theorem quantifies over their possible behaviours.
-/

namespace WBQA

/-! ## Basic character and string utilities (Python string semantics) -/

/-- Python whitespace test (the core set matched by `\s` and `str.strip`),
keyed on the character code so that proofs about `Char.toLower` only need
numeric reasoning. -/
def isWs (c : Char) : Bool :=
  c.toNat = 32 || c.toNat = 9 || c.toNat = 10 || c.toNat = 13

/-- Python `\w` word character (ASCII reading): alphanumeric or underscore. -/
def isWordChar (c : Char) : Bool :=
  c.isAlphanum || c = '_'

/-- Python `str.lower()` (ASCII case folding, as `Char.toLower` provides). -/
def pylower (s : String) : String :=
  ⟨s.data.map Char.toLower⟩

/-- Python `str.strip()` on a character list: drop whitespace from both ends. -/
def stripL (l : List Char) : List Char :=
  ((l.dropWhile isWs).reverse.dropWhile isWs).reverse

/-- Python `str.strip()`. -/
def pystrip (s : String) : String :=
  ⟨stripL s.data⟩

/-- Worker for `str.split()` (split on whitespace runs, dropping empty
pieces); `cur` holds the current word reversed. -/
def splitWsGo : List Char → List Char → List String
  | [], cur => if cur.isEmpty then [] else [⟨cur.reverse⟩]
  | c :: cs, cur =>
    if isWs c then
      if cur.isEmpty then splitWsGo cs [] else ⟨cur.reverse⟩ :: splitWsGo cs []
    else splitWsGo cs (c :: cur)

/-- Python `str.split()` with no argument. -/
def pysplitWs (s : String) : List String :=
  splitWsGo s.data []

/-- Python `str.split(sep)` for a one-character separator: keeps empty
pieces, `""` yields `[""]`. -/
def splitOnCharGo (sep : Char) : List Char → List Char → List String
  | [], cur => [⟨cur.reverse⟩]
  | c :: cs, cur =>
    if c = sep then ⟨cur.reverse⟩ :: splitOnCharGo sep cs []
    else splitOnCharGo sep cs (c :: cur)

/-- Python `str.split(sep)` (single-character separator). -/
def pysplitOn (sep : Char) (s : String) : List String :=
  splitOnCharGo sep s.data []

/-- Python slicing `s[:n]` (by code points). -/
def pytake (n : Nat) (s : String) : String :=
  ⟨s.data.take n⟩

/-- Python `sep.join(parts)`. -/
def pyjoin (sep : String) : List String → String
  | [] => ""
  | [x] => x
  | x :: y :: rest => x ++ sep ++ pyjoin sep (y :: rest)

/-- Python `needle in hay` on character lists (substring containment). -/
def containsSub (needle : List Char) : List Char → Bool
  | [] => needle.isEmpty
  | l@(_ :: cs) => needle.isPrefixOf l || containsSub needle cs

/-- Python `s.startswith(pre)`. -/
def pyStartsWith (pre s : String) : Bool :=
  pre.data.isPrefixOf s.data

/-! ## Semantic cache (src/cache.py)

The sentence-transformer embedding model is an external artifact; it is
modelled as an oracle `enc : String → List ℚ`.  The library routine
`util.cos_sim` is modelled by the exact cosine-similarity formula on
rational vectors, using `Rat.sqrt` for the norm product (exact on every
input whose norm product is a perfect rational square, in particular on
the unit-norm embeddings used in the concrete instances below). -/

/-- Dot product of two embedding vectors (equal length in all uses). -/
def dotL : List ℚ → List ℚ → ℚ
  | a :: as, b :: bs => a * b + dotL as bs
  | _, _ => 0

/-- Model of `sentence_transformers.util.cos_sim`. -/
def cos_sim (u v : List ℚ) : ℚ :=
  dotL u v / Rat.sqrt (dotL u u * dotL v v)

/-- One entry of the pickle cache (src/cache.py line 18):
`{"query": str, "embedding": np.array, "summary": str}`. -/
structure CacheEntry where
  query : String
  embedding : List ℚ
  summary : String
deriving DecidableEq, Repr

/-- Default similarity threshold of `find_similar_query` (cache.py line 20). -/
def defaultThreshold : ℚ := 3 / 4

/-- The scan loop of `find_similar_query` (cache.py lines 23-29): walk the
cache in insertion order and return the first entry whose cosine
similarity with the query embedding reaches the threshold. -/
def findGo (u : List ℚ) (t : ℚ) : List CacheEntry → Option (String × ℚ)
  | [] => none
  | e :: rest =>
    let sim := cos_sim u e.embedding
    if t ≤ sim then some (e.summary, sim) else findGo u t rest

/-- Model of `find_similar_query(new_query, threshold)` (cache.py lines 20-29):
embed the query, scan the cache, return `(summary, sim)` for the first
entry with `sim >= threshold`, else `(None, None)` (modelled as `none`). -/
def find_similar_query (enc : String → List ℚ) (cache : List CacheEntry)
    (new_query : String) (threshold : ℚ) : Option (String × ℚ) :=
  findGo (enc new_query) threshold cache

/-- Model of `add_to_cache(query, summary)` (cache.py lines 32-40): append an entry
holding the query, its embedding and the summary.  The pickle write is
I/O; the cache list itself is the persisted state. -/
def add_to_cache (enc : String → List ℚ) (cache : List CacheEntry)
    (query summary : String) : List CacheEntry :=
  cache ++ [⟨query, enc query, summary⟩]

/-! ## Retrieval engine (src/web_search.py)

The two search providers (`search_duckduckgo_lite`, `search_google_scrape`)
are network code; each is modelled as an oracle
`String → Nat → Option (List String)` mapping the (enhanced) query and the
requested result count to either a returned URL list or `none` for a raised
exception. -/

/-- A search provider oracle: `none` models a raised exception, `some urls`
a returned (already quality-filtered) URL list. -/
abbrev SearchProv := String → Nat → Option (List String)

/-- First fixed replacement produced by `enhance_query`
(web_search.py line 43). -/
def animalLargestFixed : String := "largest animal in the world blue whale facts"

/-- Second fixed replacement produced by `enhance_query`
(web_search.py line 44). -/
def animalSmallestFixed : String := "smallest animal in the world facts"

/-- Model of `re.match(pre + ".*" + mid, q)` for the literal-prefix/literal-infix
patterns of `enhance_query`: the query must start with `pre` and contain
`mid` after it before any newline (`.` does not match a newline). -/
def matchPreMid (pre mid q : String) : Bool :=
  pyStartsWith pre q &&
    containsSub mid.data ((q.data.drop pre.data.length).takeWhile (· ≠ '\n'))

/-- The `enhancements` dict of `enhance_query` (web_search.py lines
41-62), built for the already lowercased and stripped query `q`: each
entry pairs the outcome of `re.match` for its pattern (translated to the
equivalent prefix/containment test) with the enhancement value, in
insertion order; the final `.*` pattern always matches. -/
def enhance_patterns (q : String) : List (Bool × String) :=
  [(pyStartsWith "biggest animal" q || pyStartsWith "largest animal" q,
      animalLargestFixed),
    (pyStartsWith "smallest animal" q || pyStartsWith "tiniest animal" q,
      animalSmallestFixed),
    (matchPreMid "what is" "animal" q, q ++ " facts information"),
    (matchPreMid "how does" "work" q, q ++ " explanation science"),
    (matchPreMid "what is" "made of" q, q ++ " composition materials"),
    (pyStartsWith "why is" q, q ++ " explanation reason"),
    (matchPreMid "when did" "happen" q, q ++ " historical facts"),
    (pyStartsWith "who was" q, q ++ " biography historical facts"),
    (pyStartsWith "where is" q, q ++ " location geography facts"),
    (matchPreMid "what is" "capital" q, q ++ " geography"),
    (true, q ++ " facts information")]

/-- The pattern loop of `enhance_query` (web_search.py lines 64-70):
return the enhancement of the first matching pattern, or the default from
line 70 when none matches. -/
def firstMatch : List (Bool × String) → String → String
  | [], dflt => dflt
  | (b, r) :: rest, dflt => if b then r else firstMatch rest dflt

/-- Model of `enhance_query(query)` (web_search.py lines 34-70): lowercase and
strip the query (line 38), then probe the pattern table in order. -/
def enhance_query (raw : String) : String :=
  firstMatch (enhance_patterns (pylower (pystrip raw)))
    (pylower (pystrip raw) ++ " facts information")

/-- The provider loop of `search_multi_engine` (web_search.py lines
316-336): try each provider with `max_results * 2`; a raised exception or
an empty list advances to the next provider; a non-empty list is truncated
to `max_results` and returned; when every provider yields nothing the
result is the empty list. -/
def try_providers : List SearchProv → String → Nat → List String
  | [], _, _ => []
  | p :: rest, eq, mr =>
    match p eq (mr * 2) with
    | none => try_providers rest eq mr
    | some results =>
      if results.isEmpty then try_providers rest eq mr
      else results.take mr

/-- Model of `search_multi_engine(query, max_results)` (web_search.py lines
303-336): enhance the query, then run the fixed provider chain
DuckDuckGo-then-Google. -/
def search_multi_engine (ddg goog : SearchProv) (query : String)
    (max_results : Nat) : List String :=
  try_providers [ddg, goog] (enhance_query query) max_results

/-! ## Content extractor (src/web_search.py lines 338-396)

BeautifulSoup parsing, tag removal and container selection (lines 342-374)
are library behaviour over the HTML tree; the function is modelled from
the point where the chosen container has been linearized to text
(`extracted_content`, line 359/367/374), which is the input below.  Lines
376-394 — whitespace normalization, sentence splitting on `'.'`, the
length-20 filter and query-relevance selection — are translated directly. -/

/-- The sentence-selection loop of `extract_relevant_content` (lines
385-392): keep a stripped sentence when it is longer than 20 characters
and either shares a word with the query or fewer than 3 sentences have
been kept so far; `kept` counts `len(relevant_sentences)`. -/
def selectSentencesGo (qws : List String) (kept : Nat) :
    List String → List String
  | [] => []
  | s :: rest =>
    let t := pystrip s
    if 20 < t.length then
      if (pysplitWs (pylower t)).any (fun w => qws.contains w) || kept < 3 then
        t :: selectSentencesGo qws (kept + 1) rest
      else selectSentencesGo qws kept rest
    else selectSentencesGo qws kept rest

/-- Model of `extract_relevant_content(soup, query)` (lines 338-396), taking the
linearized text of the selected container as input: normalize whitespace,
split into `'.'`-sentences, select by length and query relevance, join the
first 10 kept sentences with `'. '`; empty extracted text yields `""`. -/
def extract_relevant_content (extracted : String) (query : String) : String :=
  if extracted = "" then ""
  else
    let norm := pyjoin " " (pysplitWs extracted)
    let sentences := pysplitOn '.' norm
    let relevant := selectSentencesGo (pysplitWs (pylower query)) 0 sentences
    pyjoin ". " (relevant.take 10)

/-- Outcome of the HTTP GET inside `scrape_page`: `success body` carries
the linearized text of the fetched page; `failure` stands for any
non-success status (`raise_for_status`), timeout or transport exception
(web_search.py lines 418-426). -/
inductive FetchOutcome where
  | success (body : String)
  | failure
deriving DecidableEq, Repr

/-- Model of `scrape_page(url, timeout)` (web_search.py lines 398-426): on a
successful fetch, extract content (query argument `""`, line 411) and
return it only when non-empty and strictly longer than 100 characters
(line 413); every failure path returns `""`. -/
def scrape_page (fetch : String → FetchOutcome) (url : String) : String :=
  match fetch url with
  | .failure => ""
  | .success body =>
    if extract_relevant_content body "" ≠ "" ∧
        100 < (extract_relevant_content body "").length then
      extract_relevant_content body ""
    else ""

/-! ## Summarizer (src/summarizer.py)

The regex substitutions of `clean_and_preprocess_text` (lines 30-55) are
translated one by one into scanning functions on `List Char`; all word
patterns involved begin and end with word characters, so the `\b`
boundaries reduce to a non-word test on the neighbouring character.  The
hosted summarization model behind `pipeline("summarization", ...)` is an
oracle `String → Nat → Option String` (prompt and `max_length` to either
the produced `summary_text` or `none` for a raised exception). -/

/-- Replace every maximal run of characters satisfying `p` by the single
character `rep` (models `re.sub(p+, rep, ...)`); the `Bool` flag records
being inside a run. -/
def collapseRunsBy (p : Char → Bool) (rep : Char) : List Char → Bool → List Char
  | [], _ => []
  | c :: cs, inRun =>
    if p c then
      if inRun then collapseRunsBy p rep cs true
      else rep :: collapseRunsBy p rep cs true
    else c :: collapseRunsBy p rep cs false

/-- Case-insensitive literal match of `pat` at the head of `l`, returning
the unconsumed remainder. -/
def matchCIRest : (pat : List Char) → (l : List Char) → Option (List Char)
  | [], l => some l
  | _ :: _, [] => none
  | p :: ps, c :: cs =>
    if p.toLower = c.toLower then matchCIRest ps cs else none

/-- Try to match one of the literal word alternatives `ws` at the current
position (case-insensitive, as under `re.I`): the `\b` before the match
demands that the previous character be a non-word character
(`prevWord = false`), the `\b` after it that the next character be absent
or non-word; on success the unconsumed remainder is returned.  Empty
alternatives are refused so a successful match always consumes input. -/
def tryWords (ws : List (List Char)) (prevWord : Bool) (l : List Char) :
    Option (List Char) :=
  if prevWord then none
  else ws.findSome? fun w =>
    if w.isEmpty then none
    else
      match matchCIRest w l with
      | some r => if r.head?.any isWordChar then none else some r
      | none => none

/-- Fueled worker for `removeWordsGo`; the fuel is always at least the
input length, so the fuel-exhausted branch is unreachable. -/
def removeWordsGoF (ws : List (List Char)) : Nat → Bool → List Char → List Char
  | 0, _, l => l
  | _ + 1, _, [] => []
  | fuel + 1, prevWord, c :: cs =>
    match tryWords ws prevWord (c :: cs) with
    | some rest => removeWordsGoF ws fuel true rest
    | none => c :: removeWordsGoF ws fuel (isWordChar c) cs

/-- Model of `re.sub(r'\b(w1|...|wn)\b', '', text, flags=re.I)` (summarizer.py line
38): delete every boundary-delimited occurrence of one of the words,
scanning left to right. -/
def removeWordsGo (ws : List (List Char)) (prevWord : Bool) (l : List Char) :
    List Char :=
  removeWordsGoF ws l.length prevWord l

/-- Model of `re.sub(r'\b(w1|...|wn)\b.*', '', text, flags=re.I)` (summarizer.py
lines 41 and 44): the input contains no newline (whitespace was collapsed
first), so `.*` runs to the end of the string and the substitution keeps
only the prefix before the leftmost boundary-delimited occurrence. -/
def cutFromWordGo (ws : List (List Char)) (prevWord : Bool) : List Char → List Char
  | [] => []
  | c :: cs =>
    match tryWords ws prevWord (c :: cs) with
    | some _ => []
    | none => c :: cutFromWordGo ws (isWordChar c) cs

/-- Fueled worker for `removeDigitsGo`. -/
def removeDigitsGoF : Nat → Bool → List Char → List Char
  | 0, _, l => l
  | _ + 1, _, [] => []
  | fuel + 1, prevWord, c :: cs =>
    if c.isDigit && !prevWord then
      if 10 ≤ ((c :: cs).takeWhile Char.isDigit).length &&
          !(((c :: cs).dropWhile Char.isDigit).head?.any isWordChar) then
        removeDigitsGoF fuel true ((c :: cs).dropWhile Char.isDigit)
      else
        (c :: cs).takeWhile Char.isDigit ++
          removeDigitsGoF fuel true ((c :: cs).dropWhile Char.isDigit)
    else c :: removeDigitsGoF fuel (isWordChar c) cs

/-- Model of `re.sub(r'\b\d{10,}\b', '', text)` (summarizer.py line 47): delete
every maximal digit run of length at least 10 whose neighbours are
non-word characters (a shorter or letter-adjacent run is kept; no match
can start inside a run since the previous character would be a digit). -/
def removeDigitsGo (prevWord : Bool) (l : List Char) : List Char :=
  removeDigitsGoF l.length prevWord l

/-- Whether a whitespace-delimited token matches `\S+@\S+\.\S+`
(summarizer.py line 48): greedy backtracking consumes the token to its
end, so a token matches exactly when it has an `'@'` at some position
`p ≥ 1` and a `'.'` at some position `q ≥ p + 2` that is not its last
character; matching tokens are deleted whole. -/
def emailish (tok : List Char) : Bool :=
  (List.range tok.length).any fun p =>
    decide (1 ≤ p) && decide (tok.getD p ' ' = '@') &&
      ((List.range tok.length).any fun q =>
        decide (p + 2 ≤ q) && decide (q + 1 < tok.length) &&
          decide (tok.getD q ' ' = '.'))

/-- Fueled worker for `removeEmailTokensGo`. -/
def removeEmailTokensGoF : Nat → List Char → List Char
  | 0, l => l
  | _ + 1, [] => []
  | fuel + 1, c :: cs =>
    if isWs c then c :: removeEmailTokensGoF fuel cs
    else
      (if emailish ((c :: cs).takeWhile fun x => !isWs x) then []
       else (c :: cs).takeWhile fun x => !isWs x) ++
        removeEmailTokensGoF fuel ((c :: cs).dropWhile fun x => !isWs x)

/-- Model of `re.sub(r'\S+@\S+\.\S+', '', text)` (summarizer.py line 48): drop
every email-like whitespace-delimited token. -/
def removeEmailTokensGo (l : List Char) : List Char :=
  removeEmailTokensGoF l.length l

/-- The character class kept by `re.sub(r'[^\w\s,.!?()-]', '', text)`
(summarizer.py line 51). -/
def keepCharB (c : Char) : Bool :=
  isWordChar c || isWs c || c = ',' || c = '.' || c = '!' || c = '?' ||
    c = '(' || c = ')' || c = '-'

/-- Words removed by summarizer.py line 38. -/
def nav_words : List (List Char) :=
  ["Home", "About", "Contact", "Menu", "Navigation", "Login", "Register",
    "Subscribe", "Follow", "Share"].map String.data

/-- Phrases that cut the rest of the text, summarizer.py line 41. -/
def legal_words : List (List Char) :=
  ["Copyright", "All rights reserved", "Privacy Policy",
    "Terms of Service"].map String.data

/-- Phrases that cut the rest of the text, summarizer.py line 44. -/
def promo_words : List (List Char) :=
  ["Follow us", "Like us", "Subscribe", "Book now", "Call now",
    "WhatsApp"].map String.data

/-- Model of `clean_and_preprocess_text(text)` (summarizer.py lines 30-55): the
eight regex substitutions in source order, then `strip()`. -/
def clean_and_preprocess_text (text : String) : String :=
  let t1 := collapseRunsBy isWs ' ' text.data false
  let t2 := removeWordsGo nav_words false t1
  let t3 := cutFromWordGo legal_words false t2
  let t4 := cutFromWordGo promo_words false t3
  let t5 := removeDigitsGo false t4
  let t6 := removeEmailTokensGo t5
  let t7 := t6.filter keepCharB
  let t8 := collapseRunsBy (· = '.') '.' t7 false
  let t9 := collapseRunsBy (· = ',') ',' t8 false
  pystrip ⟨t9⟩

/-- Model of `re.split(r'(?<=[.!?])\s+', text)` (summarizer.py line 62 and line
244): break after sentence punctuation followed by whitespace, the
whitespace run being the separator; `cur` holds the current piece
reversed. -/
def splitSentencesGoF : Nat → List Char → List Char → List String
  | 0, _, cur => [⟨cur.reverse⟩]
  | _ + 1, [], cur => [⟨cur.reverse⟩]
  | fuel + 1, c :: cs, cur =>
    if isWs c && cur.head?.any (fun p => p = '.' || p = '!' || p = '?') then
      (⟨cur.reverse⟩ : String) :: splitSentencesGoF fuel ((c :: cs).dropWhile isWs) []
    else splitSentencesGoF fuel cs (c :: cur)

/-- Model of `re.split(r'(?<=[.!?])\s+', text)` on a character list, with `cur` the
current piece reversed. -/
def splitSentencesGo (l : List Char) (cur : List Char) : List String :=
  splitSentencesGoF l.length l cur

/-- Promotional patterns of summarizer.py lines 73-76. -/
def promo_markers : List String :=
  ["best time to visit", "click here", "read more", "book now",
    "call us", "contact us", "follow us", "subscribe"]

/-- Model of `extract_sentences(text)` (summarizer.py lines 57-82): split into
sentences, strip each, drop those shorter than 20 characters or with
fewer than 4 words, and drop promotional sentences having more than 3
dots. -/
def extract_sentences (text : String) : List String :=
  ((splitSentencesGo text.data []).map pystrip).filter fun s =>
    !(decide (s.length < 20) || decide ((pysplitWs s).length < 4)) &&
      !((promo_markers.any fun m => containsSub m.data (pylower s).data) &&
        decide (3 < s.data.count '.'))

/-- The normalized word set of a sentence (summarizer.py lines 92-94):
`set(re.sub(r'\W+', ' ', sentence.lower()).strip().split())`, the set
modelled as a deduplicated list. -/
def normWordsSet (s : String) : List String :=
  (pysplitWs (pystrip
    ⟨collapseRunsBy (fun c => !isWordChar c) ' ' (pylower s).data false⟩)).dedup

/-- The inner duplicate test of `remove_duplicate_sentences` (summarizer.py
lines 96-102): for each previously seen word set compute
`overlap = |inter| / max(sizes)` and report a duplicate when it exceeds
0.7.  When both sets are empty the Python division raises
`ZeroDivisionError`, modelled as `none`. -/
def checkDup (ws : List String) : List (List String) → Option Bool
  | [] => some false
  | sw :: rest =>
    if max ws.length sw.length = 0 then none
    else if (7 : ℚ) / 10 <
        ((ws.filter fun w => sw.contains w).length : ℚ) /
          (max ws.length sw.length : ℚ) then some true
    else checkDup ws rest

/-- The accumulation loop of `remove_duplicate_sentences` (summarizer.py
lines 88-112): keep non-duplicates (appending their word set to the seen
list) and stop once 15 sentences are kept; `none` propagates the
`ZeroDivisionError` of the duplicate test. -/
def rdsGo : List String → List (List String) → List String → Option (List String)
  | [], _, acc => some acc
  | s :: rest, seen, acc =>
    match checkDup (normWordsSet s) seen with
    | none => none
    | some true => if 15 ≤ acc.length then some acc else rdsGo rest seen acc
    | some false =>
      if 15 ≤ (acc ++ [s]).length then some (acc ++ [s])
      else rdsGo rest (seen ++ [normWordsSet s]) (acc ++ [s])

/-- Model of `remove_duplicate_sentences(sentences)` (summarizer.py lines 84-112). -/
def remove_duplicate_sentences (sentences : List String) : Option (List String) :=
  rdsGo sentences [] []

/-- Fueled worker for `countNumbersGo`. -/
def countNumbersGoF : Nat → Bool → List Char → Nat
  | 0, _, _ => 0
  | _ + 1, _, [] => 0
  | fuel + 1, prevWord, c :: cs =>
    if c.isDigit && !prevWord then
      (if ((c :: cs).dropWhile Char.isDigit).head?.any isWordChar then 0 else 1) +
        countNumbersGoF fuel true ((c :: cs).dropWhile Char.isDigit)
    else countNumbersGoF fuel (isWordChar c) cs

/-- Count of `re.findall(r'\b\d+\b', sentence)` (summarizer.py line 141):
maximal digit runs with non-word neighbours. -/
def countNumbersGo (prevWord : Bool) (l : List Char) : Nat :=
  countNumbersGoF l.length prevWord l

/-- Information-density words of summarizer.py lines 135-136. -/
def info_words : List String :=
  ["best", "time", "visit", "month", "season", "weather", "temperature",
    "cost", "price", "tips", "guide", "how", "when", "where", "what"]

/-- The score of one sentence in `extract_key_information` (summarizer.py
lines 125-153): 3 per query-word occurrence, 1 per info-word occurrence,
2 per number, minus 2 for more than 30 words, minus 1 per word repeated
more than twice. -/
def sentence_score (query_words : List String) (sentence : String) : ℤ :=
  let words := pysplitWs (pylower sentence)
  let qws := (query_words.map pylower).dedup
  3 * ((words.filter fun w => qws.contains w).length : ℤ) +
    ((words.filter fun w => info_words.contains w).length : ℤ) +
    2 * (countNumbersGo false sentence.data : ℤ) -
    (if 30 < words.length then 2 else 0) -
    ((words.dedup.filter fun w => 2 < words.count w).length : ℤ)

/-- Model of `extract_key_information(sentences, query_words)` (summarizer.py lines
114-157): score each sentence, sort stably by descending score (Python
`sort(reverse=True)` is stable, as is `mergeSort`), take the top 10. -/
def extract_key_information (sentences : List String)
    (query_words : List String) : List String :=
  (((sentences.map fun s => (s, sentence_score query_words s)).mergeSort
      fun a b => decide (b.2 ≤ a.2)).map Prod.fst).take 10

/-- Grouping markers of summarizer.py line 172. -/
def intro_markers : List String :=
  ["best time", "ideal time", "perfect time", "recommended"]

/-- Model of `re.sub(r'([.!?])\s*([A-Z])', r'\1 \2', summary)` (summarizer.py line
185): after sentence punctuation followed by optional whitespace and an
uppercase letter, force exactly one space. -/
def fixPunctSpacingF : Nat → List Char → List Char
  | 0, l => l
  | _ + 1, [] => []
  | fuel + 1, c :: cs =>
    if c = '.' || c = '!' || c = '?' then
      match cs.dropWhile isWs with
      | u :: rs =>
        if u.isUpper then c :: ' ' :: u :: fixPunctSpacingF fuel rs
        else c :: fixPunctSpacingF fuel cs
      | [] => c :: fixPunctSpacingF fuel cs
    else c :: fixPunctSpacingF fuel cs

/-- Model of `re.sub(r'([.!?])\s*([A-Z])', r'\1 \2', summary)` on a character
list. -/
def fixPunctSpacing (l : List Char) : List Char :=
  fixPunctSpacingF l.length l

/-- Model of `create_coherent_summary(sentences)` (summarizer.py lines 159-187):
group intro-marker sentences first, join the first 3 intro and first 7
detail sentences, collapse whitespace, fix punctuation spacing, strip. -/
def create_coherent_summary (sentences : List String) : String :=
  if sentences.isEmpty then ""
  else
    let intro := sentences.filter fun s =>
      intro_markers.any fun m => containsSub m.data (pylower s).data
    let detail := sentences.filter fun s =>
      !(intro_markers.any fun m => containsSub m.data (pylower s).data)
    let joined := pyjoin " " (intro.take 3 ++ detail.take 7)
    pystrip ⟨fixPunctSpacing (collapseRunsBy isWs ' ' joined.data false)⟩

/-- The truncation step of `summarize_with_ai` (summarizer.py lines
196-198): text longer than 500 words is cut to its first 500 words. -/
def truncate500 (text : String) : String :=
  if 500 < (pysplitWs text).length then pyjoin " " ((pysplitWs text).take 500)
  else text

/-- The list of prompts `summarize_with_ai` submits to the summarization
model: a single call (summarizer.py line 200) on the possibly truncated
text — there is no chunk loop. -/
def ai_model_inputs (text : String) : List String :=
  [truncate500 text]

/-- Model of `summarize_with_ai(text, max_length)` (summarizer.py lines 189-204):
truncate, call the model once; if the call raises, fall back to the first
500 characters of the (already truncated) text with an ellipsis when it
is longer than 500 characters. -/
def summarize_with_ai (ai : String → Nat → Option String) (text : String)
    (max_length : Nat) : String :=
  let t := truncate500 text
  match ai t max_length with
  | some s => s
  | none => if 500 < t.length then pytake 500 t ++ "..." else t

/-- Model of `summarize_text(text, query)` (summarizer.py lines 206-247): guard for
insufficient input, clean, extract sentences, fall back to the model for
fewer than 3 sentences, else deduplicate (which may raise, giving `none`),
score, build the summary, enhance a short summary with the model, trim an
overlong one at sentence boundaries, and replace an empty result by the
fixed marker. -/
def summarize_text (ai : String → Nat → Option String) (text : String)
    (query : Option String) : Option String :=
  if text = "" || (pystrip text).length < 100 then
    some "Insufficient content to summarize."
  else
    let query_words := match query with
      | some q => pysplitWs q
      | none => []
    let cleaned := clean_and_preprocess_text text
    let sentences := extract_sentences cleaned
    if sentences.length < 3 then some (summarize_with_ai ai cleaned 150)
    else
      match remove_duplicate_sentences sentences with
      | none => none
      | some unique_sentences =>
        let key_sentences := extract_key_information unique_sentences query_words
        let s0 := create_coherent_summary key_sentences
        let s1 :=
          if (pysplitWs s0).length < 30 then
            if s0.length < (summarize_with_ai ai cleaned 200).length then
              summarize_with_ai ai cleaned 200
            else s0
          else s0
        let s2 :=
          if 2000 < s1.length then pyjoin " " ((splitSentencesGo s1.data []).take 8)
          else s1
        some (if s2 = "" then
          "Unable to generate summary from the provided content."
        else s2)

/-! ## Pipeline orchestrator (src/main.py lines 10-59; src/app.py `search`
follows the same structure)

The query classifier (agent.py, an external pickled model), the page
scraper and the summarizer are oracles; the search phase is the
`search_multi_engine` model above. -/

/-- Outcome of one pipeline run (main.py lines 16-59): each constructor is
one of the early-exit branches or the completed miss run. -/
inductive RunOutcome where
  | invalidQuery
  | cachedResult (summary : String) (sim : ℚ)
  | noResults
  | noContent
  | summarizeFailed
  | completed (summary : String)
deriving DecidableEq, Repr

/-- Steps 3-6 of main.py (lines 28-59): search, scrape the first 5 URLs
keeping non-empty contents truncated to 5000 characters, summarize (a
raised exception gives `summarizeFailed`), then cache and return. -/
def run_search_phase (ddg goog : SearchProv) (scrape : String → String)
    (summ : String → Option String) (enc : String → List ℚ)
    (cache : List CacheEntry) (query : String) : RunOutcome × List CacheEntry :=
  let urls := search_multi_engine ddg goog query 5
  if urls.isEmpty then (.noResults, cache)
  else
    let contents := (((urls.take 5).map scrape).filter fun c => c ≠ "").map (pytake 5000)
    if contents.isEmpty then (.noContent, cache)
    else
      match summ (pyjoin "\n\n" contents) with
      | none => (.summarizeFailed, cache)
      | some summary => (.completed summary, add_to_cache enc cache query summary)

/-- One iteration of `main()` (main.py lines 16-59): classify, look up the
cache (a hit requires a truthy, i.e. non-empty, cached summary), and on a
miss run the search phase. -/
def process_query (classify : String → String) (ddg goog : SearchProv)
    (scrape : String → String) (summ : String → Option String)
    (enc : String → List ℚ) (cache : List CacheEntry) (query : String) :
    RunOutcome × List CacheEntry :=
  if classify query = "invalid" then (.invalidQuery, cache)
  else
    match find_similar_query enc cache query defaultThreshold with
    | some (s, v) =>
      if s ≠ "" then (.cachedResult s v, cache)
      else run_search_phase ddg goog scrape summ enc cache query
    | none => run_search_phase ddg goog scrape summ enc cache query

/-- A 1500-word (3 × the 500-word chunk limit) input, used as concrete
test data for the chunking behaviour of the summarizer. -/
def text1500 : String := pyjoin " " (List.replicate 1500 "a")

/-! ## Helper lemmas -/

/-- The square root of `1` as a rational is `1`. -/
theorem ratSqrt_one : Rat.sqrt 1 = 1 := by
  rw [show (1 : ℚ) = 1 * 1 by norm_num, Rat.sqrt_eq]
  norm_num

/-- A dot product of a vector with itself is nonnegative. -/
theorem dotL_self_nonneg : ∀ u : List ℚ, 0 ≤ dotL u u
  | [] => le_refl 0
  | a :: as => by
    simp only [dotL]
    exact add_nonneg (mul_self_nonneg a) (dotL_self_nonneg as)

/-- Cosine similarity of a vector with itself is `1` whenever the vector
is not degenerate. -/
theorem cos_sim_self (u : List ℚ) (h : dotL u u ≠ 0) : cos_sim u u = 1 := by
  unfold cos_sim
  rw [Rat.sqrt_eq (dotL u u), abs_of_nonneg (dotL_self_nonneg u)]
  exact div_self h

/-- The cache scan misses exactly when every entry is below the
threshold. -/
theorem findGo_eq_none_iff (u : List ℚ) (t : ℚ) :
    ∀ cache, findGo u t cache = none ↔ ∀ e ∈ cache, cos_sim u e.embedding < t
  | [] => by simp [findGo]
  | e :: rest => by
    simp only [findGo]
    by_cases h : t ≤ cos_sim u e.embedding
    · simp only [if_pos h]
      constructor
      · intro hc
        exact absurd hc (by simp)
      · intro hall
        exact absurd (hall e (by simp)) (not_lt.mpr h)
    · simp only [if_neg h, findGo_eq_none_iff u t rest]
      constructor
      · intro hall e' he'
        rcases List.mem_cons.mp he' with h1 | h2
        · subst h1; exact not_le.mp h
        · exact hall e' h2
      · intro hall e' he'
        exact hall e' (List.mem_cons_of_mem e he')

/-- A cache-scan hit returns the threshold-reaching similarity of the
first entry (in insertion order) that reaches the threshold. -/
theorem findGo_eq_some (u : List ℚ) (t : ℚ) :
    ∀ cache s v, findGo u t cache = some (s, v) →
      t ≤ v ∧ ∃ pre e post, cache = pre ++ e :: post ∧ e.summary = s ∧
        cos_sim u e.embedding = v ∧ ∀ e' ∈ pre, cos_sim u e'.embedding < t
  | [], s, v => by simp [findGo]
  | e :: rest, s, v => by
    simp only [findGo]
    by_cases h : t ≤ cos_sim u e.embedding
    · simp only [if_pos h, Option.some.injEq, Prod.mk.injEq]
      rintro ⟨hs, hv⟩
      subst hs; subst hv
      exact ⟨h, [], e, rest, rfl, rfl, rfl, by simp⟩
    · simp only [if_neg h]
      intro hfind
      obtain ⟨hv, pre, e', post, hsplit, hsum, hcos, hpre⟩ :=
        findGo_eq_some u t rest s v hfind
      refine ⟨hv, e :: pre, e', post, by simp [hsplit], hsum, hcos, ?_⟩
      intro x hx
      rcases List.mem_cons.mp hx with h1 | h2
      · subst h1; exact not_le.mp h
      · exact hpre x h2

/-- Entries below the threshold at the front of the cache do not affect
the scan. -/
theorem findGo_append_misses (u : List ℚ) (t : ℚ) (l2 : List CacheEntry) :
    ∀ l1, (∀ e ∈ l1, cos_sim u e.embedding < t) →
      findGo u t (l1 ++ l2) = findGo u t l2
  | [], _ => rfl
  | e :: rest, h => by
    simp only [List.cons_append, findGo,
      if_neg (not_le.mpr (h e (by simp)))]
    exact findGo_append_misses u t l2 rest fun e' he' =>
      h e' (List.mem_cons_of_mem e he')

/-- A hit in the cache prefix is preserved by appending entries. -/
theorem findGo_append_of_some (u : List ℚ) (t : ℚ) (l2 : List CacheEntry) :
    ∀ l1 s v, findGo u t l1 = some (s, v) →
      findGo u t (l1 ++ l2) = some (s, v)
  | [], s, v => by simp [findGo]
  | e :: rest, s, v => by
    simp only [findGo, List.cons_append]
    by_cases h : t ≤ cos_sim u e.embedding
    · simp [if_pos h]
    · simp only [if_neg h]
      exact findGo_append_of_some u t l2 rest s v

/-- Cosine similarity of the concrete unit vectors used in the
counterexamples: `[1, 0]` against `[4/5, 3/5]` is `4/5`. -/
theorem cos_sim_unit_45 : cos_sim [(1 : ℚ), 0] [4/5, 3/5] = 4/5 := by
  unfold cos_sim
  norm_num [dotL, ratSqrt_one]

/-- Cosine similarity of `[1, 0]` with itself is `1`. -/
theorem cos_sim_unit_self : cos_sim [(1 : ℚ), 0] [1, 0] = 1 := by
  unfold cos_sim
  norm_num [dotL, ratSqrt_one]

/-- Cosine similarity of `[1, 0]` against `[-1, 0]` is `-1`. -/
theorem cos_sim_unit_neg : cos_sim [(1 : ℚ), 0] [-1, 0] = -1 := by
  unfold cos_sim
  norm_num [dotL, ratSqrt_one]

/-! ## Claim C1 -/

/-- C1 (amended): for every embedding oracle, cache state, query and
threshold, the pickle cache lookup `find_similar_query` returns `none`
exactly when every stored entry has similarity strictly below the
threshold (equivalently: when the most similar entry is below it), and a
hit returns the stored summary and similarity of the first entry in
insertion order whose similarity reaches the threshold (inclusive
comparison) — not necessarily of the nearest entry. -/
theorem c1_lookup_first_match (enc : String → List ℚ) (cache : List CacheEntry)
    (q : String) (t : ℚ) :
    (find_similar_query enc cache q t = none ↔
      ∀ e ∈ cache, cos_sim (enc q) e.embedding < t) ∧
    (∀ s v, find_similar_query enc cache q t = some (s, v) →
      t ≤ v ∧ ∃ pre e post, cache = pre ++ e :: post ∧ e.summary = s ∧
        cos_sim (enc q) e.embedding = v ∧
        ∀ e' ∈ pre, cos_sim (enc q) e'.embedding < t) :=
  ⟨findGo_eq_none_iff (enc q) t cache, fun s v => findGo_eq_some (enc q) t cache s v⟩

/-- C1 witness: on an empty cache, the lookup of the characterization
theorem reports a miss. -/
theorem c1_lookup_first_match_witness :
    find_similar_query (fun _ => [(1 : ℚ), 0]) [] "q" (3/4) = none :=
  (c1_lookup_first_match (fun _ => [(1 : ℚ), 0]) [] "q" (3/4)).1.mpr (by simp)

/-- C1 counterexample: with query embedding `[1, 0]` and a cache holding
`("A", [4/5, 3/5])` before `("B", [1, 0])`, the lookup returns the first
entry above the default threshold, `("A", 0.8)`, even though entry `"B"`
is strictly nearer (similarity `1`), so the claim that the lookup returns
the nearest entry is false. -/
theorem c1_counterexample :
    find_similar_query (fun _ => [(1 : ℚ), 0])
      [⟨"qa", [4/5, 3/5], "A"⟩, ⟨"qb", [1, 0], "B"⟩] "q" (3/4) =
        some ("A", 4/5) ∧
    cos_sim [(1 : ℚ), 0] [1, 0] = 1 ∧ (4 : ℚ)/5 < 1 ∧
    (("A", (4 : ℚ)/5) : String × ℚ) ≠ ("B", 1) := by
  refine ⟨?_, cos_sim_unit_self, by norm_num, by simp⟩
  norm_num [find_similar_query, findGo, cos_sim_unit_45, cos_sim_unit_self]

/-! ## Claim C7 -/

/-- C7 (amended): every similarity value returned by a cache lookup is at
least the threshold used (hence at least 0.75 ≥ 0 for the default), and
the similarity of a non-degenerate embedding with itself is 1; but the
similarity values computed during a lookup are not confined to `[0, 1]` —
opposite embeddings yield `-1`. -/
theorem c7_returned_similarity_ge (enc : String → List ℚ)
    (cache : List CacheEntry) (q : String) (t : ℚ) (s : String) (v : ℚ) :
    (find_similar_query enc cache q t = some (s, v) → t ≤ v) ∧
    (∀ u : List ℚ, dotL u u ≠ 0 → cos_sim u u = 1) :=
  ⟨fun h => (findGo_eq_some (enc q) t cache s v h).1, cos_sim_self⟩

/-- C7 witness: a concrete hit returns a similarity above the default
threshold. -/
theorem c7_returned_similarity_ge_witness :
    (3 : ℚ)/4 ≤ 4/5 ∧ cos_sim [(1 : ℚ), 0] [1, 0] = 1 := by
  constructor
  · refine (c7_returned_similarity_ge (fun _ => [(1 : ℚ), 0])
      [⟨"qa", [4/5, 3/5], "A"⟩] "q" (3/4) "A" (4/5)).1 ?_
    norm_num [find_similar_query, findGo, cos_sim_unit_45]
  · exact (c7_returned_similarity_ge (fun _ => [(1 : ℚ), 0]) [] "q" 1 "" 1).2
      [(1 : ℚ), 0] (by norm_num [dotL])

/-- C7 counterexample: during a lookup over a cache holding the embedding
`[-1, 0]` with query embedding `[1, 0]`, the similarity computed for that
entry is `-1`, which lies outside `[0, 1]`; the lookup correctly reports
a miss. -/
theorem c7_counterexample :
    find_similar_query (fun _ => [(1 : ℚ), 0]) [⟨"neg", [-1, 0], "S"⟩] "q"
      defaultThreshold = none ∧
    cos_sim [(1 : ℚ), 0] [-1, 0] = -1 ∧ ¬ (0 ≤ (-1 : ℚ)) := by
  refine ⟨?_, cos_sim_unit_neg, by norm_num⟩
  norm_num [find_similar_query, findGo, defaultThreshold, cos_sim_unit_neg]

/-! ## Claim C8 -/

/-- C8 (amended): after `add_to_cache(Q, S)`, a lookup of the same query
`Q` (threshold at most 1, non-degenerate embedding) always hits with a
similarity at least the threshold; it returns exactly `(S, 1)` when no
previously stored entry reaches the threshold, but in general it returns
the first (oldest) entry reaching the threshold, which may differ from
`(S, 1)`. -/
theorem c8_insert_then_lookup (enc : String → List ℚ)
    (cache : List CacheEntry) (Q S : String) (t : ℚ) (ht : t ≤ 1)
    (hnz : dotL (enc Q) (enc Q) ≠ 0) :
    (∃ s v, find_similar_query enc (add_to_cache enc cache Q S) Q t =
      some (s, v) ∧ t ≤ v) ∧
    ((∀ e ∈ cache, cos_sim (enc Q) e.embedding < t) →
      find_similar_query enc (add_to_cache enc cache Q S) Q t = some (S, 1)) := by
  have hnew : findGo (enc Q) t [⟨Q, enc Q, S⟩] = some (S, 1) := by
    unfold findGo
    rw [show (⟨Q, enc Q, S⟩ : CacheEntry).embedding = enc Q from rfl,
      cos_sim_self (enc Q) hnz, if_pos ht]
  constructor
  · cases hfind : findGo (enc Q) t cache with
    | some sv =>
      refine ⟨sv.1, sv.2, ?_, ?_⟩
      · unfold find_similar_query add_to_cache
        exact findGo_append_of_some (enc Q) t [⟨Q, enc Q, S⟩] cache sv.1 sv.2
          (by rw [hfind])
      · exact (findGo_eq_some (enc Q) t cache sv.1 sv.2 (by rw [hfind])).1
    | none =>
      refine ⟨S, 1, ?_, ht⟩
      unfold find_similar_query add_to_cache
      rw [findGo_append_misses (enc Q) t _ cache
        ((findGo_eq_none_iff (enc Q) t cache).mp hfind), hnew]
  · intro hmiss
    unfold find_similar_query add_to_cache
    rw [findGo_append_misses (enc Q) t _ cache hmiss, hnew]

/-- C8 witness: inserting into an empty cache and looking the query up
again returns the stored summary with similarity exactly 1. -/
theorem c8_insert_then_lookup_witness :
    find_similar_query (fun _ => [(1 : ℚ), 0])
      (add_to_cache (fun _ => [(1 : ℚ), 0]) [] "Q" "S") "Q" (3/4) =
      some ("S", 1) :=
  (c8_insert_then_lookup (fun _ => [(1 : ℚ), 0]) [] "Q" "S" (3/4)
    (by norm_num) (by norm_num [dotL])).2 (by simp)

/-- C8 counterexample: with a prior cache entry `("OTHER", [4/5, 3/5])`
whose similarity to the query embedding `[1, 0]` is 0.8 ≥ 0.75, inserting
`("Q", "S")` and looking up `"Q"` returns `("OTHER", 0.8)`, not
`("S", ≈1)`: the round-trip claim fails on a non-empty cache. -/
theorem c8_counterexample :
    find_similar_query (fun _ => [(1 : ℚ), 0])
      (add_to_cache (fun _ => [(1 : ℚ), 0]) [⟨"other", [4/5, 3/5], "OTHER"⟩]
        "Q" "S") "Q" defaultThreshold = some ("OTHER", 4/5) ∧
    (("OTHER", (4 : ℚ)/5) : String × ℚ) ≠ ("S", 1) := by
  constructor
  · norm_num [find_similar_query, add_to_cache, defaultThreshold, findGo,
      cos_sim_unit_45]
  · simp

/-! ## Claim C2 -/

/-- C2 (confirmed): the multi-engine search tries DuckDuckGo before
Google; when DuckDuckGo returns a non-empty URL list the result is (the
first `max_results` of) those URLs — non-empty whenever `max_results` is
positive — and Google is never consulted (the result does not depend on
the Google oracle); when DuckDuckGo raises or returns an empty list,
Google decides the outcome the same way; and only when both yield
nothing does the search report no results, returning the empty list
rather than raising. -/
theorem c2_provider_fallback (ddg goog : SearchProv) (q : String) (mr : Nat) :
    (∀ l, ddg (enhance_query q) (mr * 2) = some l → l ≠ [] →
      search_multi_engine ddg goog q mr = l.take mr ∧
      (∀ goog', search_multi_engine ddg goog' q mr = l.take mr) ∧
      (0 < mr → search_multi_engine ddg goog q mr ≠ [])) ∧
    ((ddg (enhance_query q) (mr * 2) = none ∨
        ddg (enhance_query q) (mr * 2) = some []) →
      (∀ l', goog (enhance_query q) (mr * 2) = some l' → l' ≠ [] →
        search_multi_engine ddg goog q mr = l'.take mr ∧
        (0 < mr → search_multi_engine ddg goog q mr ≠ [])) ∧
      ((goog (enhance_query q) (mr * 2) = none ∨
          goog (enhance_query q) (mr * 2) = some []) →
        search_multi_engine ddg goog q mr = [])) := by
  constructor
  · intro l hl hne
    have h1 : search_multi_engine ddg goog q mr = l.take mr := by
      unfold search_multi_engine try_providers
      rw [hl]
      simp [hne]
    refine ⟨h1, ?_, ?_⟩
    · intro goog'
      unfold search_multi_engine try_providers
      rw [hl]
      simp [hne]
    · intro hmr
      rw [h1]
      simp [List.take_eq_nil_iff, hne]
      omega
  · intro hd
    constructor
    · intro l' hl' hne'
      have h1 : search_multi_engine ddg goog q mr = l'.take mr := by
        unfold search_multi_engine
        rcases hd with h | h <;> simp only [try_providers, h, hl'] <;>
          simp [hne']
      refine ⟨h1, ?_⟩
      intro hmr
      rw [h1]
      simp [List.take_eq_nil_iff, hne']
      omega
    · intro hg
      unfold search_multi_engine
      rcases hd with h | h <;> rcases hg with h2 | h2 <;>
        simp [try_providers, h, h2]

/-- C2 witness: with DuckDuckGo returning an empty list and Google one
URL, the search returns that URL — the fallback provider was consulted. -/
theorem c2_provider_fallback_witness :
    search_multi_engine (fun _ _ => some []) (fun _ _ => some ["u"]) "q" 5 =
      ["u"] :=
  (((c2_provider_fallback (fun _ _ => some []) (fun _ _ => some ["u"]) "q" 5).2
    (Or.inr rfl)).1 ["u"] rfl (by simp)).1

/-! ## Claim C10 -/

/-- Case folding does not change whether a character is whitespace. -/
theorem isWs_toLower (c : Char) : isWs (Char.toLower c) = isWs c := by
  unfold Char.toLower
  simp only []
  by_cases h : c.toNat ≥ 65 ∧ c.toNat ≤ 90
  · rw [if_pos h]
    obtain ⟨h1, h2⟩ := h
    unfold isWs
    set n := c.toNat with hn
    interval_cases n <;> decide
  · rw [if_neg h]

/-- Appending a non-empty suffix whose last character is not whitespace to
the lowercased, stripped query never reproduces the raw query. -/
theorem lowerstrip_append_ne (raw suf : String) (hne : suf.data ≠ [])
    (hlast : ∀ x, suf.data.getLast? = some x → isWs x = false) :
    pylower (pystrip raw) ++ suf ≠ raw := by
  intro heq
  have hdata : ((stripL raw.data).map Char.toLower) ++ suf.data = raw.data := by
    have h := congrArg String.data heq
    rwa [String.data_append] at h
  set Q := raw.data with hQdef
  set S := suf.data with hSdef
  set D := Q.dropWhile isWs with hD
  set W1 := Q.takeWhile isWs with hW1
  have hQ1 : W1 ++ D = Q := List.takeWhile_append_dropWhile isWs Q
  set T := stripL Q with hT
  have hTD : D = T ++ (D.reverse.takeWhile isWs).reverse := by
    have h2 := List.takeWhile_append_dropWhile isWs D.reverse
    have h3 := congrArg List.reverse h2
    rw [List.reverse_append, List.reverse_reverse] at h3
    rw [hT]
    unfold stripL
    rw [← hD]
    exact h3.symm
  set W2 := (D.reverse.takeWhile isWs).reverse with hW2
  have hlen : W1.length + W2.length = S.length := by
    have hQeq : Q = W1 ++ T ++ W2 := by rw [List.append_assoc, ← hTD, hQ1]
    have l1 := congrArg List.length hdata
    have l2 := congrArg List.length hQeq
    simp only [List.length_append, List.length_map] at l1 l2
    omega
  have hSne : 1 ≤ S.length := by
    cases hS : S with
    | nil => exact absurd hS hne
    | cons a as => simp [hS]
  by_cases hW2ne : W2 = []
  · -- no trailing whitespace was stripped, so leading whitespace exists
    have hW1ne : W1 ≠ [] := by
      intro hw1
      rw [hw1, hW2ne] at hlen
      simp at hlen
      omega
    have hhead : Q.head? = W1.head? := by
      rw [← hQ1, List.head?_append, List.head?_eq_head hW1ne]
      rfl
    have hW1ws : ∀ x ∈ W1, isWs x = true := fun x hx => List.mem_takeWhile_imp hx
    by_cases hL : T.map Char.toLower = []
    · -- everything was stripped: the raw query is all whitespace, yet it
      -- would have to equal the suffix, whose last character is not
      have hTnil : T = [] := List.map_eq_nil_iff.mp hL
      have hDnil : D = [] := by rw [hTD, hTnil, hW2ne]; rfl
      have hallws : ∀ x ∈ Q, isWs x = true := List.dropWhile_eq_nil_iff.mp hDnil
      have hQS : Q = S := by rw [← hdata, hL]; rfl
      obtain ⟨x, hx⟩ := Option.isSome_iff_exists.mp (List.getLast?_isSome.mpr hne)
      have hxS : x ∈ S := by
        rw [List.getLast?_eq_getLast S hne] at hx
        have h5 := Option.some_inj.mp hx
        exact h5 ▸ List.getLast_mem hne
      have h6 := hallws x (hQS ▸ hxS)
      rw [hlast x hx] at h6
      exact Bool.false_ne_true h6
    · -- the stripped text is non-empty and starts with a non-whitespace
      -- character, which case folding preserves
      have hTne : T ≠ [] := fun h => hL (by rw [h]; rfl)
      have hDne : D ≠ [] := by rw [hTD, hW2ne]; simpa using hTne
      have hDT : D = T := by rw [hTD, hW2ne]; simp
      have hd0 : isWs (D.head hDne) = false := List.head_dropWhile_not isWs Q hDne
      have hTh : T.head? = some (D.head hDne) := by
        rw [← hDT, List.head?_eq_head hDne]
      have h1 : Q.head? = some (Char.toLower (D.head hDne)) := by
        rw [← hdata, List.head?_append, List.head?_map, hTh]
        rfl
      have h2 : Q.head? = some (W1.head hW1ne) := by
        rw [hhead, List.head?_eq_head hW1ne]
      have h4 : isWs (W1.head hW1ne) = true := hW1ws _ (List.head_mem hW1ne)
      rw [h1] at h2
      have h3 := Option.some_inj.mp h2
      rw [← h3, isWs_toLower, hd0] at h4
      exact Bool.false_ne_true h4
  · -- trailing whitespace was stripped, yet the last character of the
    -- would-be-equal string is the suffix last character, not whitespace
    have hW2ws : ∀ x ∈ W2, isWs x = true := by
      intro x hx
      rw [hW2] at hx
      exact List.mem_takeWhile_imp (List.mem_reverse.mp hx)
    have hQeq : Q = (W1 ++ T) ++ W2 := by
      rw [List.append_assoc, ← hTD, hQ1]
    obtain ⟨x, hx⟩ := Option.isSome_iff_exists.mp (List.getLast?_isSome.mpr hne)
    have hQS_last : Q.getLast? = some x := by
      rw [← hdata, List.getLast?_append, hx]
      rfl
    obtain ⟨y, hy⟩ := Option.isSome_iff_exists.mp (List.getLast?_isSome.mpr hW2ne)
    have hQW_last : Q.getLast? = some y := by
      rw [hQeq, List.getLast?_append, hy]
      rfl
    have hxy : x = y := by
      rw [hQS_last] at hQW_last
      exact Option.some_inj.mp hQW_last
    have hyW2 : y ∈ W2 := by
      rw [List.getLast?_eq_getLast W2 hW2ne] at hy
      exact (Option.some_inj.mp hy) ▸ List.getLast_mem hW2ne
    have h7 := hW2ws y hyW2
    rw [← hxy, hlast x hx] at h7
    exact Bool.false_ne_true h7

/-- Specialization of `lowerstrip_append_ne` to a concrete suffix with a
known last character. -/
theorem suffix_append_ne (raw suf : String) (c : Char)
    (hgl : suf.data.getLast? = some c) (hws : isWs c = false) :
    pylower (pystrip raw) ++ suf ≠ raw := by
  apply lowerstrip_append_ne
  · intro h
    rw [h] at hgl
    simp at hgl
  · intro x hx
    rw [hgl] at hx
    cases Option.some_inj.mp hx
    exact hws

/-- Any property shared by every table value and the default holds for the
result of the pattern loop. -/
theorem firstMatch_prop (P : String → Prop) :
    ∀ (table : List (Bool × String)) (dflt : String),
      (∀ br ∈ table, P br.2) → P dflt → P (firstMatch table dflt)
  | [], _, _, hd => hd
  | (b, r) :: rest, dflt, ht, hd => by
    unfold firstMatch
    by_cases hb : b = true
    · rw [if_pos hb]
      exact ht (b, r) (by simp)
    · rw [if_neg hb]
      exact firstMatch_prop P rest dflt (fun br h => ht br (by simp [h])) hd

/-- C10 (amended): `enhance_query` always returns either one of the two
fixed replacement strings or the lowercased, stripped query with one of
the fixed enhancement suffixes appended, and `search_multi_engine` hands
exactly the enhanced query to its providers; the enhanced query differs
from the caller's raw query except precisely when the raw query is itself
one of the fixed replacement strings. -/
theorem c10_enhanced_query_shape (q : String) :
    (enhance_query q = animalLargestFixed ∨
      enhance_query q = animalSmallestFixed ∨
      ∃ suf ∈ ([" facts information", " explanation science",
        " composition materials", " explanation reason",
        " historical facts", " biography historical facts",
        " location geography facts", " geography"] : List String),
        enhance_query q = pylower (pystrip q) ++ suf) ∧
    (q ≠ animalLargestFixed → q ≠ animalSmallestFixed →
      enhance_query q ≠ q) ∧
    (∀ ddg goog mr, search_multi_engine ddg goog q mr =
      try_providers [ddg, goog] (enhance_query q) mr) := by
  refine ⟨?_, ?_, fun _ _ _ => rfl⟩
  · unfold enhance_query
    refine firstMatch_prop
      (fun s => s = animalLargestFixed ∨ s = animalSmallestFixed ∨
        ∃ suf ∈ ([" facts information", " explanation science",
          " composition materials", " explanation reason",
          " historical facts", " biography historical facts",
          " location geography facts", " geography"] : List String),
          s = pylower (pystrip q) ++ suf)
      (enhance_patterns (pylower (pystrip q)))
      (pylower (pystrip q) ++ " facts information") ?_ ?_
    · intro br hbr
      simp only [enhance_patterns, List.mem_cons, List.not_mem_nil, or_false] at hbr
      rcases hbr with rfl | rfl | rfl | rfl | rfl | rfl | rfl | rfl | rfl | rfl | rfl
      · exact Or.inl rfl
      · exact Or.inr (Or.inl rfl)
      · exact Or.inr (Or.inr ⟨" facts information", by simp, rfl⟩)
      · exact Or.inr (Or.inr ⟨" explanation science", by simp, rfl⟩)
      · exact Or.inr (Or.inr ⟨" composition materials", by simp, rfl⟩)
      · exact Or.inr (Or.inr ⟨" explanation reason", by simp, rfl⟩)
      · exact Or.inr (Or.inr ⟨" historical facts", by simp, rfl⟩)
      · exact Or.inr (Or.inr ⟨" biography historical facts", by simp, rfl⟩)
      · exact Or.inr (Or.inr ⟨" location geography facts", by simp, rfl⟩)
      · exact Or.inr (Or.inr ⟨" geography", by simp, rfl⟩)
      · exact Or.inr (Or.inr ⟨" facts information", by simp, rfl⟩)
    · exact Or.inr (Or.inr ⟨" facts information", by simp, rfl⟩)
  · intro h1 h2
    unfold enhance_query
    refine firstMatch_prop (fun s => s ≠ q)
      (enhance_patterns (pylower (pystrip q)))
      (pylower (pystrip q) ++ " facts information") ?_ ?_
    · intro br hbr
      simp only [enhance_patterns, List.mem_cons, List.not_mem_nil, or_false] at hbr
      rcases hbr with rfl | rfl | rfl | rfl | rfl | rfl | rfl | rfl | rfl | rfl | rfl
      · exact fun h => h1 h.symm
      · exact fun h => h2 h.symm
      · exact suffix_append_ne q _ 'n' rfl (by decide)
      · exact suffix_append_ne q _ 'e' rfl (by decide)
      · exact suffix_append_ne q _ 's' rfl (by decide)
      · exact suffix_append_ne q _ 'n' rfl (by decide)
      · exact suffix_append_ne q _ 's' rfl (by decide)
      · exact suffix_append_ne q _ 's' rfl (by decide)
      · exact suffix_append_ne q _ 's' rfl (by decide)
      · exact suffix_append_ne q _ 'y' rfl (by decide)
      · exact suffix_append_ne q _ 'n' rfl (by decide)
    · exact suffix_append_ne q _ 'n' rfl (by decide)

/-- C10 witness: a generic query is rewritten before reaching providers. -/
theorem c10_enhanced_query_shape_witness :
    enhance_query "hello" ≠ "hello" :=
  (c10_enhanced_query_shape "hello").2.1 (by decide) (by decide)

/-- C10 counterexample: the raw query equal to the first fixed replacement
string is sent to the providers verbatim — `enhance_query` maps it to
itself, and an echoing provider oracle observes exactly the caller's raw
query — refuting the claim that the provider query always differs. -/
theorem c10_counterexample :
    enhance_query animalLargestFixed = animalLargestFixed ∧
    search_multi_engine (fun s _ => some [s]) (fun _ _ => none)
      animalLargestFixed 5 = [animalLargestFixed] := by
  constructor
  · decide
  · unfold search_multi_engine try_providers
    rw [show enhance_query animalLargestFixed = animalLargestFixed from by decide]
    simp

/-! ## Claim C5 -/

/-- Every sentence kept by the extractor's selection loop is a stripped
`'.'`-sentence of its input and is longer than 20 characters. -/
theorem selectSentencesGo_spec (qws : List String) :
    ∀ (sentences : List String) (kept : Nat) (s : String),
      s ∈ selectSentencesGo qws kept sentences →
      20 < s.length ∧ s ∈ sentences.map pystrip
  | [], kept, s => by simp [selectSentencesGo]
  | x :: rest, kept, s => by
    unfold selectSentencesGo
    by_cases h20 : 20 < (pystrip x).length
    · rw [if_pos h20]
      by_cases hsel :
          (((pysplitWs (pylower (pystrip x))).any fun w => qws.contains w) ||
            decide (kept < 3)) = true
      · rw [if_pos hsel]
        intro hs
        rcases List.mem_cons.mp hs with h | h
        · subst h
          exact ⟨h20, by simp⟩
        · obtain ⟨hl, hm⟩ := selectSentencesGo_spec qws rest (kept + 1) s h
          exact ⟨hl, by simp [List.mem_cons]; right; simpa using hm⟩
      · rw [if_neg hsel]
        intro hs
        obtain ⟨hl, hm⟩ := selectSentencesGo_spec qws rest kept s hs
        exact ⟨hl, by simp [List.mem_cons]; right; simpa using hm⟩
    · rw [if_neg h20]
      intro hs
      obtain ⟨hl, hm⟩ := selectSentencesGo_spec qws rest kept s hs
      exact ⟨hl, by simp [List.mem_cons]; right; simpa using hm⟩

/-- C5 (amended): the content extractor is total — empty input yields
empty output, and otherwise the output is the first at most 10 selected
sentences joined with `". "`, where every selected sentence is a stripped
`'.'`-sentence of the whitespace-normalized input document longer than 20
characters.  No boilerplate-phrase denylist is applied at any point, so
denylisted phrases carried by such sentences reach the output. -/
theorem c5_extractor_output_from_input (doc q : String) :
    (doc = "" → extract_relevant_content doc q = "") ∧
    (doc ≠ "" → extract_relevant_content doc q =
      pyjoin ". " ((selectSentencesGo (pysplitWs (pylower q)) 0
        (pysplitOn '.' (pyjoin " " (pysplitWs doc)))).take 10)) ∧
    (∀ s ∈ selectSentencesGo (pysplitWs (pylower q)) 0
        (pysplitOn '.' (pyjoin " " (pysplitWs doc))),
      20 < s.length ∧
        s ∈ (pysplitOn '.' (pyjoin " " (pysplitWs doc))).map pystrip) := by
  refine ⟨fun h => by simp [extract_relevant_content, h], fun h => ?_, ?_⟩
  · simp [extract_relevant_content, h]
  · intro s hs
    exact selectSentencesGo_spec (pysplitWs (pylower q)) _ 0 s hs

/-- C5 witness: on the boilerplate-laden document, the kept sentence
"Subscribe to our newsletter today friends" is indeed a long stripped
input sentence. -/
theorem c5_extractor_output_from_input_witness :
    20 < ("Subscribe to our newsletter today friends" : String).length ∧
    ("Subscribe to our newsletter today friends" : String) ∈
      (pysplitOn '.' (pyjoin " " (pysplitWs
        "Subscribe to our newsletter today friends. Click here to buy now please."))).map
        pystrip :=
  (c5_extractor_output_from_input
    "Subscribe to our newsletter today friends. Click here to buy now please."
    "").2.2 "Subscribe to our newsletter today friends" (by decide)

/-- C5 counterexample: a document whose sentences carry the denylisted
phrases "Subscribe to our newsletter" and "Click here to buy now" is
passed through verbatim (query empty, as `scrape_page` calls it): both
phrases occur in the extractor output, refuting the no-denylisted-phrase
guarantee. -/
theorem c5_counterexample :
    extract_relevant_content
      "Subscribe to our newsletter today friends. Click here to buy now please. Great deals await you here."
      "" =
      "Subscribe to our newsletter today friends. Click here to buy now please. Great deals await you here" ∧
    ("Subscribe to our newsletter").data <:+:
      ("Subscribe to our newsletter today friends. Click here to buy now please. Great deals await you here").data ∧
    ("Click here to buy now").data <:+:
      ("Subscribe to our newsletter today friends. Click here to buy now please. Great deals await you here").data := by
  exact ⟨by decide, by decide, by decide⟩

/-! ## Claim C6 -/

/-- C6 (amended): `scrape_page` is total and its result is either empty
or strictly longer than 100 characters; every fetch failure (non-success
status, timeout, transport exception) yields the empty string; on a
successful fetch the extracted content is returned only when non-empty
and strictly longer than 100 characters, and content of length at most
100 — including exactly 100 — is discarded. -/
theorem c6_scrape_page_bounds (fetch : String → FetchOutcome) (url : String) :
    (scrape_page fetch url = "" ∨ 100 < (scrape_page fetch url).length) ∧
    (fetch url = .failure → scrape_page fetch url = "") ∧
    (∀ body, fetch url = .success body →
      ((extract_relevant_content body "" ≠ "" ∧
          100 < (extract_relevant_content body "").length) →
        scrape_page fetch url = extract_relevant_content body "") ∧
      ((extract_relevant_content body "").length ≤ 100 →
        scrape_page fetch url = "")) := by
  cases hf : fetch url with
  | failure =>
    have he : scrape_page fetch url = "" := by
      unfold scrape_page
      rw [hf]
    exact ⟨Or.inl he, fun _ => he, fun body hb => by simp at hb⟩
  | success body =>
    have he : scrape_page fetch url =
        if extract_relevant_content body "" ≠ "" ∧
            100 < (extract_relevant_content body "").length then
          extract_relevant_content body ""
        else "" := by
      unfold scrape_page
      rw [hf]
    refine ⟨?_, by intro h; simp at h, ?_⟩
    · rw [he]
      by_cases hc : extract_relevant_content body "" ≠ "" ∧
          100 < (extract_relevant_content body "").length
      · rw [if_pos hc]
        exact Or.inr hc.2
      · rw [if_neg hc]
        exact Or.inl rfl
    · intro body' hb'
      have hbody : body = body' := by injection hb'
      subst hbody
      constructor
      · intro hc
        rw [he, if_pos hc]
      · intro hle
        rw [he, if_neg]
        intro hc
        omega

/-- C6 witness: a failing fetch yields the empty string. -/
theorem c6_scrape_page_bounds_witness :
    scrape_page (fun _ => FetchOutcome.failure) "u" = "" :=
  (c6_scrape_page_bounds (fun _ => FetchOutcome.failure) "u").2.1 rfl

/-- C6 counterexample: a page whose extracted content has length exactly
100 is discarded — `scrape_page` returns the empty string — refuting the
claim that content of exactly the threshold length is kept. -/
theorem c6_counterexample :
    scrape_page (fun _ => FetchOutcome.success
      (String.mk (List.replicate 100 'x'))) "u" = "" ∧
    (extract_relevant_content (String.mk (List.replicate 100 'x')) "").length =
      100 := by
  exact ⟨by decide, by decide⟩

/-! ## Claim C3 -/

/-- Words produced by the whitespace splitter are non-empty and contain no
whitespace. -/
theorem splitWsGo_wf :
    ∀ (l cur : List Char), (∀ c ∈ cur, isWs c = false) →
      ∀ w ∈ splitWsGo l cur, w.data ≠ [] ∧ ∀ c ∈ w.data, isWs c = false
  | [], cur, hcur => by
    unfold splitWsGo
    by_cases hc : cur.isEmpty
    · simp [hc]
    · rw [if_neg hc]
      intro w hw
      rw [List.mem_singleton] at hw
      subst hw
      have hne : cur ≠ [] := fun h => hc (by simp [h])
      refine ⟨by simpa using hne, ?_⟩
      intro c hcw
      exact hcur c (List.mem_reverse.mp hcw)
  | a :: l', cur, hcur => by
    unfold splitWsGo
    by_cases ha : isWs a
    · rw [if_pos ha]
      by_cases hc : cur.isEmpty
      · rw [if_pos hc]
        exact splitWsGo_wf l' [] (by simp)
      · rw [if_neg hc]
        intro w hw
        rcases List.mem_cons.mp hw with h | h
        · subst h
          have hne : cur ≠ [] := fun h => hc (by simp [h])
          refine ⟨by simpa using hne, ?_⟩
          intro c hcw
          exact hcur c (List.mem_reverse.mp hcw)
        · exact splitWsGo_wf l' [] (by simp) w h
    · rw [if_neg ha]
      refine splitWsGo_wf l' (a :: cur) ?_
      intro c hcw
      rcases List.mem_cons.mp hcw with h | h
      · subst h
        exact Bool.eq_false_iff.mpr ha
      · exact hcur c h

/-- Every word of `pysplitWs` is non-empty and whitespace-free. -/
theorem pysplitWs_wf (s : String) :
    ∀ w ∈ pysplitWs s, w.data ≠ [] ∧ ∀ c ∈ w.data, isWs c = false :=
  splitWsGo_wf s.data [] (by simp)

/-- The splitter consumes a whitespace-free block into the current word. -/
theorem splitWsGo_append_word :
    ∀ (w : List Char), (∀ c ∈ w, isWs c = false) →
      ∀ (r cur : List Char),
        splitWsGo (w ++ r) cur = splitWsGo r (w.reverse ++ cur)
  | [], _, r, cur => by simp
  | c :: w', hw, r, cur => by
    have hc : isWs c = false := hw c (List.mem_cons_self c w')
    have h1 : splitWsGo (c :: (w' ++ r)) cur = splitWsGo (w' ++ r) (c :: cur) := by
      simp [splitWsGo, hc]
    show splitWsGo (c :: (w' ++ r)) cur = _
    rw [h1, splitWsGo_append_word w'
      (fun x hx => hw x (List.mem_cons_of_mem c hx)) r (c :: cur)]
    simp

/-- Splitting the space-joined form of a list of non-empty,
whitespace-free words recovers exactly that list (faithful inverse of
`' '.join` for the words produced by `str.split()`). -/
theorem pysplitWs_pyjoin :
    ∀ l : List String,
      (∀ w ∈ l, w.data ≠ [] ∧ ∀ c ∈ w.data, isWs c = false) →
      pysplitWs (pyjoin " " l) = l
  | [], _ => rfl
  | [x], h => by
    obtain ⟨hne, hws⟩ := h x (by simp)
    show pysplitWs x = [x]
    unfold pysplitWs
    have h1 : x.data = x.data ++ [] := by simp
    rw [h1, splitWsGo_append_word x.data hws [] []]
    unfold splitWsGo
    rw [if_neg (by simpa using hne)]
    simp
  | x :: y :: rest, h => by
    obtain ⟨hne, hws⟩ := h x (by simp)
    show pysplitWs (x ++ " " ++ pyjoin " " (y :: rest)) = x :: y :: rest
    unfold pysplitWs
    rw [String.data_append, String.data_append,
      show (" " : String).data = [' '] from rfl, List.append_assoc,
      List.singleton_append,
      splitWsGo_append_word x.data hws (' ' :: (pyjoin " " (y :: rest)).data) []]
    unfold splitWsGo
    rw [if_pos (by decide), if_neg (by simpa using hne)]
    rw [List.append_nil, List.reverse_reverse]
    have hrest := pysplitWs_pyjoin (y :: rest) fun w hw =>
      h w (List.mem_cons_of_mem x hw)
    unfold pysplitWs at hrest
    rw [hrest]

/-- C3 (amended): the summarizer submits exactly one prompt to the model
for every input: input of at most 500 words is passed whole (a single
chunk), and longer input — including input of 3 × 500 words — is
truncated at a word boundary to its first 500 words; no further chunks
are produced and nothing is joined. -/
theorem c3_single_truncated_model_call (text : String) :
    ai_model_inputs text = [truncate500 text] ∧
    ((pysplitWs text).length ≤ 500 → truncate500 text = text) ∧
    (500 < (pysplitWs text).length →
      truncate500 text = pyjoin " " ((pysplitWs text).take 500) ∧
      pysplitWs (truncate500 text) = (pysplitWs text).take 500) := by
  refine ⟨rfl, fun h => by unfold truncate500; rw [if_neg (by omega)],
    fun h => ?_⟩
  have ht : truncate500 text = pyjoin " " ((pysplitWs text).take 500) := by
    unfold truncate500
    rw [if_pos h]
  refine ⟨ht, ?_⟩
  rw [ht]
  apply pysplitWs_pyjoin
  intro w hw
  exact pysplitWs_wf text w (List.mem_of_mem_take hw)

/-- C3 witness: a short text is passed to the model whole, as the single
chunk. -/
theorem c3_single_truncated_model_call_witness :
    ai_model_inputs "hi" = ["hi"] := by
  have h := c3_single_truncated_model_call "hi"
  rw [h.1, h.2.1 (by decide)]

/-- C3 counterexample: on an input of exactly 3 × 500 words the
summarizer produces one model prompt, not three, and that prompt is the
truncation to the first 500 words — the remaining 1000 words are never
summarized. -/
theorem c3_counterexample :
    (ai_model_inputs text1500).length = 1 ∧ (1 : Nat) ≠ 3 ∧
    (pysplitWs text1500).length = 3 * 500 ∧
    ai_model_inputs text1500 = [pyjoin " " (List.replicate 500 "a")] := by
  have hgood : ∀ w ∈ (List.replicate 1500 "a" : List String),
      w.data ≠ [] ∧ ∀ c ∈ w.data, isWs c = false := by
    intro w hw
    rw [List.eq_of_mem_replicate hw]
    exact ⟨by decide, by decide⟩
  have hsplit : pysplitWs text1500 = List.replicate 1500 "a" :=
    pysplitWs_pyjoin _ hgood
  refine ⟨rfl, by decide, ?_, ?_⟩
  · rw [hsplit, List.length_replicate]
  · unfold ai_model_inputs truncate500
    rw [hsplit, if_pos (by rw [List.length_replicate]; norm_num),
      List.take_replicate]
    norm_num

/-! ## Claim C9 -/

set_option maxRecDepth 4000 in
/-- C9: evaluation at the failing input.  The 184-character input below
passes the 100-character guard (second conjunct), survives cleaning with
four extracted sentences, two of which normalize to an empty word set;
`remove_duplicate_sentences` then computes `len(∩) / max(0, 0)` and
Python raises `ZeroDivisionError` (modelled as `none`): `summarize_text`
raises instead of being total and returning a summary or marker.  (The
model oracle is irrelevant — the crash happens before any model call.) -/
theorem c9_crash_eval :
    summarize_text (fun _ _ => none)
      ", , , , , , , , , , ! , , , , , , , , , , ! This is a valid sentence with many good words here. More padding words to push the total length well beyond one hundred characters in total."
      (some "test query") = none ∧
    100 ≤ (pystrip ", , , , , , , , , , ! , , , , , , , , , , ! This is a valid sentence with many good words here. More padding words to push the total length well beyond one hundred characters in total.").length :=
  ⟨by decide, by decide⟩

/-! ## Claim C4 -/

/-- Appending a cache entry always changes the cache state. -/
theorem add_to_cache_ne (enc : String → List ℚ) (cache : List CacheEntry)
    (query s : String) : add_to_cache enc cache query s ≠ cache := by
  unfold add_to_cache
  intro h
  have hl := congrArg List.length h
  simp at hl

/-- The search phase of the pipeline ends in one of the three error
outcomes with the cache untouched, or completes and appends exactly the
new entry. -/
theorem run_search_phase_cases (ddg goog : SearchProv)
    (scrape : String → String) (summ : String → Option String)
    (enc : String → List ℚ) (cache : List CacheEntry) (query : String) :
    run_search_phase ddg goog scrape summ enc cache query =
      (.noResults, cache) ∨
    run_search_phase ddg goog scrape summ enc cache query =
      (.noContent, cache) ∨
    run_search_phase ddg goog scrape summ enc cache query =
      (.summarizeFailed, cache) ∨
    ∃ s, run_search_phase ddg goog scrape summ enc cache query =
      (.completed s, add_to_cache enc cache query s) := by
  simp only [run_search_phase]
  by_cases h1 : (search_multi_engine ddg goog query 5).isEmpty = true
  · rw [if_pos h1]
    exact Or.inl rfl
  · rw [if_neg h1]
    by_cases h2 : (((((search_multi_engine ddg goog query 5).take 5).map
        scrape).filter fun c => c ≠ "").map (pytake 5000)).isEmpty = true
    · rw [if_pos h2]
      exact Or.inr (Or.inl rfl)
    · rw [if_neg h2]
      cases hs : summ (pyjoin "\n\n" (((((search_multi_engine ddg goog
          query 5).take 5).map scrape).filter (fun c => c ≠ "")).map
          (pytake 5000))) with
      | none => exact Or.inr (Or.inr (Or.inl rfl))
      | some s => exact Or.inr (Or.inr (Or.inr ⟨s, rfl⟩))

/-- C4 (confirmed): one pipeline run mutates the cache exactly when it is
a cache miss that completes successfully: the cache state changes if and
only if the outcome is `completed`, in which case the new `(query,
summary)` entry is appended; on an invalid query, a cache hit, no search
results, no scraped content, or a summarizer exception the cache is
unchanged. -/
theorem c4_cache_write_iff_success (classify : String → String)
    (ddg goog : SearchProv) (scrape : String → String)
    (summ : String → Option String) (enc : String → List ℚ)
    (cache : List CacheEntry) (query : String) :
    ((process_query classify ddg goog scrape summ enc cache query).2 ≠ cache ↔
      ∃ s, (process_query classify ddg goog scrape summ enc cache query).1 =
        RunOutcome.completed s) ∧
    (∀ s, (process_query classify ddg goog scrape summ enc cache query).1 =
        RunOutcome.completed s →
      (process_query classify ddg goog scrape summ enc cache query).2 =
        add_to_cache enc cache query s) := by
  have hsearch : ∀ hp : process_query classify ddg goog scrape summ enc cache
      query = run_search_phase ddg goog scrape summ enc cache query,
      ((process_query classify ddg goog scrape summ enc cache query).2 ≠ cache ↔
        ∃ s, (process_query classify ddg goog scrape summ enc cache query).1 =
          RunOutcome.completed s) ∧
      (∀ s, (process_query classify ddg goog scrape summ enc cache query).1 =
          RunOutcome.completed s →
        (process_query classify ddg goog scrape summ enc cache query).2 =
          add_to_cache enc cache query s) := by
    intro hp
    rw [hp]
    rcases run_search_phase_cases ddg goog scrape summ enc cache query with
      h | h | h | ⟨s, h⟩ <;> rw [h]
    · simp
    · simp
    · simp
    · constructor
      · constructor
        · intro _
          exact ⟨s, rfl⟩
        · intro _
          exact add_to_cache_ne enc cache query s
      · intro s' hs'
        simp only [RunOutcome.completed.injEq] at hs'
        rw [hs']
  by_cases hcl : classify query = "invalid"
  · have hp : process_query classify ddg goog scrape summ enc cache query =
        (.invalidQuery, cache) := by
      simp only [process_query]
      rw [if_pos hcl]
    rw [hp]
    constructor
    · simp
    · intro s hs
      simp at hs
  · cases hfind : find_similar_query enc cache query defaultThreshold with
    | none =>
      apply hsearch
      simp only [process_query]
      rw [if_neg hcl, hfind]
    | some sv =>
      obtain ⟨s0, v0⟩ := sv
      by_cases hs0 : s0 = ""
      · apply hsearch
        simp only [process_query]
        rw [if_neg hcl, hfind]
        simp [hs0]
      · have hp : process_query classify ddg goog scrape summ enc cache query =
            (.cachedResult s0 v0, cache) := by
          simp only [process_query]
          rw [if_neg hcl, hfind]
          simp [hs0]
        rw [hp]
        constructor
        · simp
        · intro s hs
          simp at hs

/-- C4 witness: a concrete successful cache-miss run changes the cache
state. -/
theorem c4_cache_write_iff_success_witness :
    (process_query (fun _ => "valid") (fun _ _ => some ["u1"])
      (fun _ _ => none) (fun _ => "CONTENT") (fun _ => some "SUM")
      (fun _ => [1]) [] "hello").2 ≠ ([] : List CacheEntry) :=
  (c4_cache_write_iff_success (fun _ => "valid") (fun _ _ => some ["u1"])
    (fun _ _ => none) (fun _ => "CONTENT") (fun _ => some "SUM")
    (fun _ => [1]) [] "hello").1.mpr ⟨"SUM", by decide⟩

end WBQA
